import Mathlib

/-!
Shallow embedding of `src/SFML/Graphics/RenderTextureImplFBO.cpp`
(FBO-based render texture implementation).

The embedding models the registry of per-owner framebuffer maps
(`frameBuffers : std::set<std::map<sf::Uint64, unsigned int>*>`), the stale
set (`staleFrameBuffers : std::set<std::pair<sf::Uint64, unsigned int>>`),
the context-destroy callback, the owner destructor, and the
`create` / `createFrameBuffer` / `activate` operations.

Driver (OpenGL) interaction is modelled by an explicit `GLState` record:
the current read/draw framebuffer bindings (binding `GLEXT_GL_FRAMEBUFFER`
sets both), a chronological log of every `glDeleteFramebuffers` call, a log
of every `glDeleteRenderbuffers` call, and a log of every
`glGenFramebuffers` result.  Driver outcomes that the code branches on
(generated handle values, the framebuffer completeness status, the context
id obtained from a backup context) are passed in as explicit arguments,
since the source reads them from the driver.
-/

namespace SFML

/-- A context identifier (`sf::Uint64`); `0` means "no active context". -/
abbrev ContextId := Nat

/-- A driver-level framebuffer handle (`unsigned int`); `0` means "not created". -/
abbrev Handle := Nat

/-- One owner's `std::map<sf::Uint64, unsigned int> m_frameBuffers`,
as an association list in key-insertion-independent map discipline:
the map operations below mirror `std::map::find` / `std::map::insert`
(which never overwrites an existing key). -/
abbrev OwnerMap := List (ContextId × Handle)

/-- `std::map::find`: the value of the first (hence, with unique keys, the
only) entry with the given key. -/
def mapFind (m : OwnerMap) (k : ContextId) : Option Handle :=
  match m with
  | [] => none
  | (k', v) :: rest => if k' = k then some v else mapFind rest k

/-- `std::map::insert(make_pair(k, v))`: inserts only when the key is not
already present, otherwise leaves the map unchanged. -/
def mapInsert (m : OwnerMap) (k : ContextId) (v : Handle) : OwnerMap :=
  match m with
  | [] => [(k, v)]
  | (k', v') :: rest =>
      if k' = k then (k', v') :: rest else (k', v') :: mapInsert rest k v

/-- Modelled driver state: framebuffer bindings plus instrumentation logs of
the driver calls the claims are about. -/
structure GLState where
  readBinding : Handle
  drawBinding : Handle
  fbDeletions : List Handle
  rbDeletions : List Handle
  fbGens : List Handle
deriving Repr, DecidableEq

/-- `glBindFramebuffer(GLEXT_GL_FRAMEBUFFER, h)`: the combined target sets
both the read and the draw binding. -/
def bindFramebuffer (gl : GLState) (h : Handle) : GLState :=
  { gl with readBinding := h, drawBinding := h }

/-- `GLEXT_glDeleteFramebuffers(1, &h)`: appends the handle to the
chronological deletion log. -/
def deleteFramebuffer (gl : GLState) (h : Handle) : GLState :=
  { gl with fbDeletions := gl.fbDeletions ++ [h] }

/-- `GLEXT_glDeleteRenderbuffers(1, &h)`. -/
def deleteRenderbuffer (gl : GLState) (h : Handle) : GLState :=
  { gl with rbDeletions := gl.rbDeletions ++ [h] }

/-- `GLEXT_glGenFramebuffers(1, &h)`: logs the generated handle (the value
is supplied by the caller as the driver's answer; `0` means failure). -/
def genFramebuffer (gl : GLState) (h : Handle) : GLState :=
  { gl with fbGens := gl.fbGens ++ [h] }

/-- One `RenderTextureImplFBO` instance: its per-context framebuffer map,
depth buffer handle, texture id, and backup context (`m_context`).
`contextsCreated` instruments how many times `new Context` ran for this
owner (it is not a field of the source class; it only counts allocations). -/
structure Owner where
  frameBuffers : OwnerMap
  depthBuffer : Handle
  textureId : Nat
  hasContext : Bool
  contextsCreated : Nat
deriving Repr, DecidableEq

/-- The anonymous-namespace globals: the set of live owner maps
(`frameBuffers`) and the stale set (`staleFrameBuffers`).  All access is
under one mutex in the source; the sequential model makes each operation
atomic. -/
structure Registry where
  live : List OwnerMap
  stale : List (ContextId × Handle)
deriving Repr, DecidableEq

/-- Inner loop of the callback over one live owner map: iterate in order,
and at the FIRST entry keyed by `cid` delete its handle, erase the entry,
and `break`. -/
def mapDestroyFirst (gl : GLState) (m : OwnerMap) (cid : ContextId) :
    GLState × OwnerMap :=
  match m with
  | [] => (gl, [])
  | (k, v) :: rest =>
      if k = cid then (deleteFramebuffer gl v, rest)
      else
        let r := mapDestroyFirst gl rest cid
        (r.1, (k, v) :: r.2)

/-- Outer loop of the callback over all live owner maps. -/
def liveDestroy (gl : GLState) (maps : List OwnerMap) (cid : ContextId) :
    GLState × List OwnerMap :=
  match maps with
  | [] => (gl, [])
  | m :: rest =>
      let r1 := mapDestroyFirst gl m cid
      let r2 := liveDestroy r1.1 rest cid
      (r2.1, r1.2 :: r2.2)

/-- Stale-set loop of the callback: delete the handle of every pair keyed by
`cid`.  The source never erases the pair from `staleFrameBuffers`, so the
set is returned unchanged. -/
def staleDestroy (gl : GLState) (s : List (ContextId × Handle))
    (cid : ContextId) : GLState × List (ContextId × Handle) :=
  match s with
  | [] => (gl, [])
  | p :: rest =>
      let gl1 := if p.1 = cid then deleteFramebuffer gl p.2 else gl
      let r := staleDestroy gl1 rest cid
      (r.1, p :: r.2)

/-- `contextDestroyCallback`: with `activeCid` the calling thread's active
context id (`sf::Context::getActiveContextId()`), destroy the matching
entry of every live owner map (erasing it), then destroy every matching
stale pair (without erasing it). -/
def contextDestroyCallback (gl : GLState) (reg : Registry)
    (activeCid : ContextId) : GLState × Registry :=
  let r1 := liveDestroy gl reg.live activeCid
  let r2 := staleDestroy r1.1 reg.stale activeCid
  (r2.1, { live := r1.2, stale := r2.2 })

/-- `std::set<std::pair<..>>::insert`: no duplicate pairs. -/
def setInsertPair (s : List (ContextId × Handle)) (p : ContextId × Handle) :
    List (ContextId × Handle) :=
  if p ∈ s then s else s ++ [p]

/-- The destructor loop moving every entry of the owner's map into the
stale set. -/
def moveToStale (s : List (ContextId × Handle)) (m : OwnerMap) :
    List (ContextId × Handle) :=
  match m with
  | [] => s
  | p :: rest => moveToStale (setInsertPair s p) rest

/-- `~RenderTextureImplFBO`: erase this owner's map from the live set
(leaving `others`), delete the depth buffer if any, move all of the owner's
entries into the stale set, and run one `contextDestroyCallback` pass with
whatever context is currently active (`activeCid`).  Deleting the backup
context afterwards has no effect modelled here. -/
def destructor (gl : GLState) (others : List OwnerMap)
    (stale : List (ContextId × Handle)) (o : Owner) (activeCid : ContextId) :
    GLState × Registry :=
  let gl1 := if o.depthBuffer ≠ 0 then deleteRenderbuffer gl o.depthBuffer else gl
  let stale1 := moveToStale stale o.frameBuffers
  contextDestroyCallback gl1 { live := others, stale := stale1 } activeCid

/-- `RenderTextureImplFBO::createFrameBuffer`: generate a framebuffer
(`genFB` is the driver's answer, `0` = failure), bind it, attach the
texture and optional depth buffer, check completeness (`complete` is the
driver's status answer).  On incompleteness: bind `0`, delete the partial
handle, fail.  On success: insert `(activeCid, genFB)` into the owner's
map. -/
def createFrameBuffer (o : Owner) (gl : GLState) (activeCid : ContextId)
    (genFB : Handle) (complete : Bool) : Bool × Owner × GLState :=
  let gl0 := genFramebuffer gl genFB
  if genFB = 0 then (false, o, gl0)
  else
    let gl1 := bindFramebuffer gl0 genFB
    if complete then
      (true, { o with frameBuffers := mapInsert o.frameBuffers activeCid genFB }, gl1)
    else
      let gl2 := bindFramebuffer gl1 0
      let gl3 := deleteFramebuffer gl2 genFB
      (false, o, gl3)

/-- `RenderTextureImplFBO::create` (desktop, non-ES path): optionally create
the depth renderbuffer (`genDepth` is the driver's answer, `0` = failure),
store the texture id, return `true` at once when no context is active,
otherwise save the read/draw framebuffer bindings, run
`createFrameBuffer`, and restore the saved bindings only on success. -/
def create (o : Owner) (gl : GLState) (width height textureId : Nat)
    (wantDepth : Bool) (activeCid : ContextId) (genDepth : Handle)
    (genFB : Handle) (complete : Bool) : Bool × Owner × GLState :=
  if wantDepth ∧ genDepth = 0 then
    (false, { o with depthBuffer := 0 }, gl)
  else
    let o1 := if wantDepth then { o with depthBuffer := genDepth } else o
    let o2 := { o1 with textureId := textureId }
    if activeCid = 0 then (true, o2, gl)
    else
      let savedRead := gl.readBinding
      let savedDraw := gl.drawBinding
      let r := createFrameBuffer o2 gl activeCid genFB complete
      if r.1 then
        (true, r.2.1,
          { r.2.2 with readBinding := savedRead, drawBinding := savedDraw })
      else
        (false, r.2.1, r.2.2)

/-- `RenderTextureImplFBO::activate`: `activate(false)` binds framebuffer
`0`.  `activate(true)` determines the context id; when none is active it
lazily allocates the backup context (at most once) and activates it,
`backupCid` being the active id obtained afterwards (`0` = the backup
context failed to become current).  Then it binds the existing framebuffer
for that context if the map has one, and otherwise calls
`createFrameBuffer`. -/
def activate (o : Owner) (gl : GLState) (active : Bool)
    (activeCid : ContextId) (backupCid : ContextId) (genFB : Handle)
    (complete : Bool) : Bool × Owner × GLState :=
  if !active then (true, o, bindFramebuffer gl 0)
  else
    let o1 :=
      if activeCid = 0 ∧ ¬o.hasContext then
        { o with hasContext := true, contextsCreated := o.contextsCreated + 1 }
      else o
    let cid := if activeCid = 0 then backupCid else activeCid
    if cid = 0 then (false, o1, gl)
    else
      match mapFind o1.frameBuffers cid with
      | some h => (true, o1, bindFramebuffer gl h)
      | none => createFrameBuffer o1 gl cid genFB complete

/-- The empty driver state used by the concrete scenarios. -/
def glInit : GLState :=
  { readBinding := 0, drawBinding := 0, fbDeletions := [], rbDeletions := [],
    fbGens := [] }

/-- A fresh owner with no framebuffers, depth buffer, or backup context. -/
def ownerInit : Owner :=
  { frameBuffers := [], depthBuffer := 0, textureId := 0, hasContext := false,
    contextsCreated := 0 }

/-- Concrete run for the stale-set double-destruction defect: an owner whose
map holds framebuffer `5` for context `1` is destructed while context `1`
is current, and context `1` is then torn down.  The result is the final
driver state. -/
def doubleDestroyRun : GLState :=
  let o : Owner := { ownerInit with frameBuffers := [(1, 5)], textureId := 7 }
  let r1 := destructor glInit [] [] o 1
  (contextDestroyCallback r1.1 r1.2 1).1

/-- Concrete run for the stale-set non-removal defect: the callback fires
for context `1` with orphan set `[(1, 5)]` and no live maps. -/
def staleNotRemovedRun : GLState × Registry :=
  contextDestroyCallback glInit { live := [], stale := [(1, 5)] } 1

/-- Concrete run for the binding-restoration counterexample: `create` with
draw/read binding `5` active, a context current, a successfully generated
framebuffer `7`, and an incomplete framebuffer status. -/
def bindingLossRun : Bool × Owner × GLState :=
  create ownerInit
    { glInit with readBinding := 5, drawBinding := 5 } 64 64 7 false 1 0 7 false

/-- The list a driver answer contributes to a deletion log. -/
def optList : Option Handle → List Handle
  | none => []
  | some v => [v]

/-- The handles the callback's live-map pass deletes: one per owner map that
contains the context id. -/
def liveDels : List OwnerMap → ContextId → List Handle
  | [], _ => []
  | m :: rest, cid => optList (mapFind m cid) ++ liveDels rest cid

/-- The handles the callback's stale pass deletes: every stale pair keyed by
the context id. -/
def staleDels : List (ContextId × Handle) → ContextId → List Handle
  | [], _ => []
  | p :: rest, cid =>
      if p.1 = cid then p.2 :: staleDels rest cid else staleDels rest cid

theorem fbDeletions_bindFramebuffer (gl : GLState) (h : Handle) :
    (bindFramebuffer gl h).fbDeletions = gl.fbDeletions := rfl

theorem fbDeletions_deleteRenderbuffer (gl : GLState) (h : Handle) :
    (deleteRenderbuffer gl h).fbDeletions = gl.fbDeletions := rfl

theorem mapFind_mem {m : OwnerMap} {k : ContextId} {v : Handle}
    (hf : mapFind m k = some v) : (k, v) ∈ m := by
  induction m with
  | nil => simp [mapFind] at hf
  | cons p rest ih =>
      obtain ⟨k', v'⟩ := p
      rw [mapFind] at hf
      by_cases hk : k' = k
      · simp [hk] at hf
        simp [hk, hf]
      · simp only [hk, if_false] at hf
        exact List.mem_cons_of_mem _ (ih hf)

theorem mapFind_eq_of_mem {m : OwnerMap} {k : ContextId} {v : Handle}
    (hnd : (m.map Prod.fst).Nodup) (hm : (k, v) ∈ m) :
    mapFind m k = some v := by
  induction m with
  | nil => simp at hm
  | cons p rest ih =>
      obtain ⟨k', v'⟩ := p
      simp only [List.map_cons, List.nodup_cons] at hnd
      rcases List.mem_cons.mp hm with hhead | htail
      · rw [mapFind]
        simp [Prod.ext_iff] at hhead
        simp [hhead.1, hhead.2]
      · rw [mapFind]
        by_cases hk : k' = k
        · exfalso
          exact hnd.1 (hk ▸ List.mem_map.mpr ⟨(k, v), htail, rfl⟩)
        · simp only [hk, if_false]
          exact ih hnd.2 htail

theorem mapFind_mapInsert_self {m : OwnerMap} {k : ContextId} (v : Handle)
    (hnone : mapFind m k = none) :
    mapFind (mapInsert m k v) k = some v := by
  induction m with
  | nil => simp [mapInsert, mapFind]
  | cons p rest ih =>
      obtain ⟨k', v'⟩ := p
      rw [mapFind] at hnone
      by_cases hk : k' = k
      · simp [hk] at hnone
      · simp only [hk, if_false] at hnone
        rw [mapInsert]
        simp only [hk, if_false]
        rw [mapFind]
        simp only [hk, if_false]
        exact ih hnone

theorem mem_map_fst_mapInsert {m : OwnerMap} {k a : ContextId} {v : Handle} :
    a ∈ (mapInsert m k v).map Prod.fst ↔ a ∈ m.map Prod.fst ∨ a = k := by
  induction m with
  | nil => simp [mapInsert]
  | cons p rest ih =>
      obtain ⟨k', v'⟩ := p
      rw [mapInsert]
      by_cases hk : k' = k
      · simp only [hk, if_true]
        constructor
        · intro hin
          exact Or.inl (hk ▸ hin)
        · rintro (hin | rfl)
          · exact hk ▸ hin
          · simp [hk]
      · simp only [hk, if_false, List.map_cons, List.mem_cons, ih]
        tauto

theorem mapInsert_nodup {m : OwnerMap} {k : ContextId} {v : Handle}
    (hnd : (m.map Prod.fst).Nodup) :
    ((mapInsert m k v).map Prod.fst).Nodup := by
  induction m with
  | nil => simp [mapInsert]
  | cons p rest ih =>
      obtain ⟨k', v'⟩ := p
      simp only [List.map_cons, List.nodup_cons] at hnd
      rw [mapInsert]
      by_cases hk : k' = k
      · simp only [hk, if_true, List.map_cons, List.nodup_cons]
        exact ⟨hk ▸ hnd.1, hnd.2⟩
      · simp only [hk, if_false, List.map_cons, List.nodup_cons]
        refine ⟨fun hmem => ?_, ih hnd.2⟩
        rcases mem_map_fst_mapInsert.mp hmem with hin | rfl
        · exact hnd.1 hin
        · exact hk rfl

theorem mapDestroyFirst_fbDeletions (m : OwnerMap) (cid : ContextId) :
    ∀ gl : GLState, (mapDestroyFirst gl m cid).1.fbDeletions =
      gl.fbDeletions ++ optList (mapFind m cid) := by
  induction m with
  | nil => intro gl; simp [mapDestroyFirst, mapFind, optList]
  | cons p rest ih =>
      intro gl
      obtain ⟨k, v⟩ := p
      rw [mapDestroyFirst, mapFind]
      by_cases hk : k = cid
      · simp [hk, deleteFramebuffer, optList]
      · simp only [hk, if_false]
        rw [ih gl]
  
theorem liveDestroy_fbDeletions (maps : List OwnerMap) (cid : ContextId) :
    ∀ gl : GLState, (liveDestroy gl maps cid).1.fbDeletions =
      gl.fbDeletions ++ liveDels maps cid := by
  induction maps with
  | nil => intro gl; simp [liveDestroy, liveDels]
  | cons m rest ih =>
      intro gl
      rw [liveDestroy]
      simp only
      rw [ih, mapDestroyFirst_fbDeletions, liveDels, List.append_assoc]

theorem staleDestroy_fbDeletions (s : List (ContextId × Handle))
    (cid : ContextId) :
    ∀ gl : GLState, (staleDestroy gl s cid).1.fbDeletions =
      gl.fbDeletions ++ staleDels s cid := by
  induction s with
  | nil => intro gl; simp [staleDestroy, staleDels]
  | cons p rest ih =>
      intro gl
      rw [staleDestroy]
      simp only
      rw [ih, staleDels]
      by_cases hk : p.1 = cid
      · simp [hk, deleteFramebuffer]
      · simp [hk]

theorem staleDestroy_snd (s : List (ContextId × Handle)) (cid : ContextId) :
    ∀ gl : GLState, (staleDestroy gl s cid).2 = s := by
  induction s with
  | nil => intro gl; simp [staleDestroy]
  | cons p rest ih =>
      intro gl
      rw [staleDestroy]
      simp only [List.cons.injEq, true_and]
      exact ih _

theorem contextDestroyCallback_fbDeletions (gl : GLState) (reg : Registry)
    (cid : ContextId) :
    (contextDestroyCallback gl reg cid).1.fbDeletions =
      gl.fbDeletions ++ liveDels reg.live cid ++ staleDels reg.stale cid := by
  rw [contextDestroyCallback]
  simp only
  rw [staleDestroy_fbDeletions, liveDestroy_fbDeletions]

theorem contextDestroyCallback_stale (gl : GLState) (reg : Registry)
    (cid : ContextId) :
    (contextDestroyCallback gl reg cid).2.stale = reg.stale := by
  rw [contextDestroyCallback]
  simp only
  rw [staleDestroy_snd]

theorem mem_staleDels {s : List (ContextId × Handle)} {cid : ContextId}
    {h : Handle} : h ∈ staleDels s cid ↔ (cid, h) ∈ s := by
  induction s with
  | nil => simp [staleDels]
  | cons p rest ih =>
      obtain ⟨k, v⟩ := p
      rw [staleDels]
      by_cases hk : k = cid
      · subst hk
        rw [if_pos rfl]
        simp only [List.mem_cons, ih, Prod.mk.injEq, true_and]
      · simp only [hk, if_false, ih, List.mem_cons, Prod.mk.injEq]
        constructor
        · exact Or.inr
        · rintro (⟨h1, h2⟩ | hin)
          · exact absurd h1.symm hk
          · exact hin

theorem mem_liveDels {maps : List OwnerMap} {cid : ContextId} {h : Handle} :
    h ∈ liveDels maps cid ↔ ∃ m ∈ maps, mapFind m cid = some h := by
  induction maps with
  | nil => simp [liveDels]
  | cons m rest ih =>
      rw [liveDels]
      simp only [List.mem_append, ih, List.mem_cons]
      cases hf : mapFind m cid with
      | none =>
          simp only [optList, List.not_mem_nil, false_or]
          constructor
          · rintro ⟨m', hm', hfind⟩
            exact ⟨m', Or.inr hm', hfind⟩
          · rintro ⟨m', hm' | hm', hfind⟩
            · rw [hm'] at hfind
              rw [hf] at hfind
              exact Option.noConfusion hfind
            · exact ⟨m', hm', hfind⟩
      | some v =>
          simp only [optList, List.mem_singleton]
          constructor
          · rintro (rfl | ⟨m', hm', hfind⟩)
            · exact ⟨m, Or.inl rfl, hf⟩
            · exact ⟨m', Or.inr hm', hfind⟩
          · rintro ⟨m', hm' | hm', hfind⟩
            · rw [hm'] at hfind
              rw [hf] at hfind
              exact Or.inl (Option.some.inj hfind).symm
            · exact Or.inr ⟨m', hm', hfind⟩

theorem mem_setInsertPair {s : List (ContextId × Handle)}
    {p q : ContextId × Handle} :
    p ∈ setInsertPair s q ↔ p ∈ s ∨ p = q := by
  rw [setInsertPair]
  by_cases hq : q ∈ s
  · simp only [hq, if_true]
    constructor
    · exact Or.inl
    · rintro (hin | rfl)
      · exact hin
      · exact hq
  · simp [hq]

theorem mem_moveToStale {m : OwnerMap} :
    ∀ {s : List (ContextId × Handle)} {p : ContextId × Handle},
      p ∈ moveToStale s m ↔ p ∈ s ∨ p ∈ m := by
  induction m with
  | nil => intro s p; simp [moveToStale]
  | cons q rest ih =>
      intro s p
      rw [moveToStale]
      rw [ih, mem_setInsertPair]
      simp [List.mem_cons]
      tauto

theorem destructor_fbDeletions (gl : GLState) (others : List OwnerMap)
    (stale : List (ContextId × Handle)) (o : Owner) (c : ContextId) :
    (destructor gl others stale o c).1.fbDeletions =
      gl.fbDeletions ++ liveDels others c ++
        staleDels (moveToStale stale o.frameBuffers) c := by
  rw [destructor]
  rw [contextDestroyCallback_fbDeletions]
  by_cases hd : o.depthBuffer = 0
  · simp [hd]
  · simp [hd, deleteRenderbuffer]

theorem destructor_stale (gl : GLState) (others : List OwnerMap)
    (stale : List (ContextId × Handle)) (o : Owner) (c : ContextId) :
    (destructor gl others stale o c).2.stale =
      moveToStale stale o.frameBuffers := by
  rw [destructor]
  rw [contextDestroyCallback_stale]

theorem activate_true_with_context (o : Owner) (gl : GLState)
    (c b : ContextId) (g : Handle) (comp : Bool) (hc : c ≠ 0) :
    activate o gl true c b g comp =
      match mapFind o.frameBuffers c with
      | some h => (true, o, bindFramebuffer gl h)
      | none => createFrameBuffer o gl c g comp := by
  rw [activate]
  simp [hc]

/-- C1: the claim that each surface handle is destroyed at most once FAILS
on the code.  An owner holding framebuffer `5` for context `1` is
destructed while context `1` is current: the destructor moves `(1, 5)` to
the stale set and its cleanup pass deletes handle `5` but never erases the
stale pair, so the later teardown of context `1` deletes handle `5` a
second time.  The driver deletion log of the whole sequence is `[5, 5]`. -/
theorem handle_destroyed_twice_on_owner_then_context_teardown :
    doubleDestroyRun.fbDeletions = [5, 5] ∧
    doubleDestroyRun.fbDeletions.count 5 = 2 := by
  constructor <;> rfl

/-- C2: the claim that every matching orphan pair is destroyed AND removed
FAILS on the code.  With orphan set `[(1, 5)]` and context `1` current, the
callback deletes handle `5` via the driver but leaves the pair `(1, 5)` in
the orphan set after returning. -/
theorem stale_pair_destroyed_but_not_removed :
    staleNotRemovedRun.1.fbDeletions = [5] ∧
    (1, 5) ∈ staleNotRemovedRun.2.stale := by
  constructor
  · rfl
  · decide

/-- C4: a `contextDestroyCallback` invocation destroys exactly the handles
tagged with the calling thread's active context id — a handle enters the
deletion log if and only if it was already logged or some live owner map or
the stale set holds a pair keying it by that context id (unique keys per
owner map assumed, as `std::map` guarantees). -/
theorem callback_destroys_exactly_current_context
    (gl : GLState) (reg : Registry) (cid : ContextId) (h : Handle)
    (hnd : ∀ m ∈ reg.live, (m.map Prod.fst).Nodup) :
    h ∈ (contextDestroyCallback gl reg cid).1.fbDeletions ↔
      h ∈ gl.fbDeletions ∨ (∃ m ∈ reg.live, (cid, h) ∈ m) ∨
        (cid, h) ∈ reg.stale := by
  rw [contextDestroyCallback_fbDeletions]
  constructor
  · intro hmem
    rcases List.mem_append.mp hmem with h1 | h2
    · rcases List.mem_append.mp h1 with hg | hl
      · exact Or.inl hg
      · obtain ⟨m, hm, hfind⟩ := mem_liveDels.mp hl
        exact Or.inr (Or.inl ⟨m, hm, mapFind_mem hfind⟩)
    · exact Or.inr (Or.inr (mem_staleDels.mp h2))
  · rintro (hg | ⟨m, hm, hpair⟩ | hstale)
    · exact List.mem_append.mpr (Or.inl (List.mem_append.mpr (Or.inl hg)))
    · refine List.mem_append.mpr (Or.inl (List.mem_append.mpr (Or.inr ?_)))
      exact mem_liveDels.mpr ⟨m, hm, mapFind_eq_of_mem (hnd m hm) hpair⟩
    · exact List.mem_append.mpr (Or.inr (mem_staleDels.mpr hstale))

/-- C4 witness: with one live map `[(1, 5)]` and stale set `[(2, 6)]`, the
callback for context `1` logs handle `5` (keyed by `1` in a live map) and
does not log handle `6` (keyed by `2`). -/
theorem callback_destroys_exactly_current_context_witness :
    5 ∈ (contextDestroyCallback glInit
      { live := [[(1, 5)]], stale := [(2, 6)] } 1).1.fbDeletions ∧
    6 ∉ (contextDestroyCallback glInit
      { live := [[(1, 5)]], stale := [(2, 6)] } 1).1.fbDeletions := by
  constructor
  · exact (callback_destroys_exactly_current_context glInit
      { live := [[(1, 5)]], stale := [(2, 6)] } 1 5 (by decide)).mpr
      (Or.inr (Or.inl ⟨[(1, 5)], by decide, by decide⟩))
  · intro hmem
    rcases (callback_destroys_exactly_current_context glInit
        { live := [[(1, 5)]], stale := [(2, 6)] } 1 6 (by decide)).mp hmem with
      hg | ⟨m, hm, hpair⟩ | hstale
    · exact absurd hg (by decide)
    · rw [List.mem_singleton] at hm
      rw [hm] at hpair
      exact absurd hpair (by decide)
    · exact absurd hstale (by decide)

/-- C6: every framebuffer deletion issued by `contextDestroyCallback`
deletes an entry keyed by the calling thread's active context id: any
handle newly present in the deletion log came from a live-map entry or a
stale pair tagged with that id. -/
theorem callback_deletes_only_for_active_context
    (gl : GLState) (reg : Registry) (cid : ContextId) (h : Handle)
    (hnew : h ∈ (contextDestroyCallback gl reg cid).1.fbDeletions)
    (hold : h ∉ gl.fbDeletions) :
    (∃ m ∈ reg.live, (cid, h) ∈ m) ∨ (cid, h) ∈ reg.stale := by
  rw [contextDestroyCallback_fbDeletions] at hnew
  rcases List.mem_append.mp hnew with h1 | h2
  · rcases List.mem_append.mp h1 with hg | hl
    · exact absurd hg hold
    · obtain ⟨m, hm, hfind⟩ := mem_liveDels.mp hl
      exact Or.inl ⟨m, hm, mapFind_mem hfind⟩
  · exact Or.inr (mem_staleDels.mp h2)

/-- C6 witness: in the callback for context `1` over one live map
`[(1, 5)]` and stale set `[(1, 9)]`, the logged handle `9` indeed comes
from a pair keyed by context `1`. -/
theorem callback_deletes_only_for_active_context_witness :
    (∃ m ∈ ({ live := [[(1, 5)]], stale := [(1, 9)] } : Registry).live,
      ((1 : ContextId), (9 : Handle)) ∈ m) ∨
    ((1 : ContextId), (9 : Handle)) ∈
      ({ live := [[(1, 5)]], stale := [(1, 9)] } : Registry).stale :=
  callback_deletes_only_for_active_context glInit
    { live := [[(1, 5)]], stale := [(1, 9)] } 1 9 (by decide) (by decide)

/-- C10: `create(width, height, textureId, false)` with no active context
returns `true`, stores the texture id, and performs no driver call and no
map insertion — framebuffer creation is deferred. -/
theorem create_without_context_defers
    (o : Owner) (gl : GLState) (w ht tid : Nat) (gd g : Handle)
    (comp : Bool) :
    create o gl w ht tid false 0 gd g comp =
      (true, { o with textureId := tid }, gl) := by
  rw [create]
  simp

/-- C3: destroying an owner while context `c` is current destroys the
owner's handle tagged with `c` during the destructor; every entry tagged
with another context migrates into the stale (orphan) set and, provided its
handle is not tagged with `c` anywhere else, is not destroyed by the
destructor. -/
theorem destructor_destroys_current_and_orphans_rest
    (gl : GLState) (others : List OwnerMap) (stale : List (ContextId × Handle))
    (o : Owner) (c : ContextId) :
    (∀ h : Handle, (c, h) ∈ o.frameBuffers →
      h ∈ (destructor gl others stale o c).1.fbDeletions) ∧
    (∀ k h, (k, h) ∈ o.frameBuffers → k ≠ c →
      (k, h) ∈ (destructor gl others stale o c).2.stale ∧
      (h ∉ gl.fbDeletions → (∀ m ∈ others, (c, h) ∉ m) → (c, h) ∉ stale →
        (c, h) ∉ o.frameBuffers →
        h ∉ (destructor gl others stale o c).1.fbDeletions)) := by
  constructor
  · intro h hmem
    rw [destructor_fbDeletions]
    refine List.mem_append.mpr (Or.inr ?_)
    exact mem_staleDels.mpr (mem_moveToStale.mpr (Or.inr hmem))
  · intro k h hmem hkc
    refine ⟨?_, ?_⟩
    · rw [destructor_stale]
      exact mem_moveToStale.mpr (Or.inr hmem)
    · intro hgl hothers hstale hself hdel
      rw [destructor_fbDeletions] at hdel
      rcases List.mem_append.mp hdel with h1 | h2
      · rcases List.mem_append.mp h1 with hg | hl
        · exact hgl hg
        · obtain ⟨m, hm, hfind⟩ := mem_liveDels.mp hl
          exact hothers m hm (mapFind_mem hfind)
      · rcases mem_moveToStale.mp (mem_staleDels.mp h2) with hs | ho
        · exact hstale hs
        · exact hself ho

/-- C3 witness: an owner holding `(1, 5)` and `(2, 6)` is destructed while
context `1` is current: handle `5` is destroyed during the destructor,
while `(2, 6)` migrates to the stale set undestroyed. -/
theorem destructor_destroys_current_and_orphans_rest_witness :
    5 ∈ (destructor glInit [] []
      { ownerInit with frameBuffers := [(1, 5), (2, 6)] } 1).1.fbDeletions ∧
    (2, 6) ∈ (destructor glInit [] []
      { ownerInit with frameBuffers := [(1, 5), (2, 6)] } 1).2.stale ∧
    6 ∉ (destructor glInit [] []
      { ownerInit with frameBuffers := [(1, 5), (2, 6)] } 1).1.fbDeletions := by
  refine ⟨?_, ?_, ?_⟩
  · exact (destructor_destroys_current_and_orphans_rest glInit [] []
      { ownerInit with frameBuffers := [(1, 5), (2, 6)] } 1).1 5 (by decide)
  · exact ((destructor_destroys_current_and_orphans_rest glInit [] []
      { ownerInit with frameBuffers := [(1, 5), (2, 6)] } 1).2 2 6
      (by decide) (by decide)).1
  · exact ((destructor_destroys_current_and_orphans_rest glInit [] []
      { ownerInit with frameBuffers := [(1, 5), (2, 6)] } 1).2 2 6
      (by decide) (by decide)).2 (by decide) (by decide) (by decide) (by decide)

/-- C5: per (owner, context) handle uniqueness and reuse.  After a
successful `activate(true)` under context `c` the owner's map binds `c` to
the handle left bound in the driver, the map keys stay unique, and a second
`activate(true)` under the same context returns success with the owner and
the driver state completely unchanged — it finds the existing map entry,
re-binds the same handle, and creates no second framebuffer. -/
theorem activate_reuses_existing_handle
    (o : Owner) (gl : GLState) (c b : ContextId) (g : Handle) (comp : Bool)
    (o' : Owner) (gl' : GLState)
    (hc : c ≠ 0) (hnd : (o.frameBuffers.map Prod.fst).Nodup)
    (hrun : activate o gl true c b g comp = (true, o', gl')) :
    (o'.frameBuffers.map Prod.fst).Nodup ∧
    mapFind o'.frameBuffers c = some gl'.drawBinding ∧
    ∀ (b2 : ContextId) (g2 : Handle) (comp2 : Bool),
      activate o' gl' true c b2 g2 comp2 = (true, o', gl') := by
  rw [activate_true_with_context o gl c b g comp hc] at hrun
  cases hf : mapFind o.frameBuffers c with
  | some h =>
      rw [hf] at hrun
      injection hrun with h1 h2
      injection h2 with h3 h4
      subst h3
      subst h4
      refine ⟨hnd, hf, ?_⟩
      intro b2 g2 comp2
      rw [activate_true_with_context _ _ c b2 g2 comp2 hc]
      simp only [hf]
      rfl
  | none =>
      rw [hf] at hrun
      rw [createFrameBuffer] at hrun
      by_cases hg : g = 0
      · simp [hg] at hrun
      · simp only [hg, if_false] at hrun
        cases comp with
        | false => simp at hrun
        | true =>
            simp only [if_true] at hrun
            injection hrun with h1 h2
            injection h2 with h3 h4
            subst h3
            subst h4
            have hfind := mapFind_mapInsert_self (m := o.frameBuffers)
              (k := c) g hf
            refine ⟨mapInsert_nodup hnd, hfind, ?_⟩
            intro b2 g2 comp2
            rw [activate_true_with_context _ _ c b2 g2 comp2 hc]
            rw [hfind]
            rfl

/-- C5 witness: after a first `activate(true)` on a fresh owner under
context `1` creates framebuffer `7`, a second `activate(true)` under
context `1` leaves owner and driver state untouched, even with different
driver oracles. -/
theorem activate_reuses_existing_handle_witness :
    activate { ownerInit with frameBuffers := [(1, 7)] }
        { glInit with readBinding := 7, drawBinding := 7, fbGens := [7] }
        true 1 0 9 false =
      (true, { ownerInit with frameBuffers := [(1, 7)] },
        { glInit with readBinding := 7, drawBinding := 7, fbGens := [7] }) :=
  (activate_reuses_existing_handle ownerInit glInit 1 0 7 true
    { ownerInit with frameBuffers := [(1, 7)] }
    { glInit with readBinding := 7, drawBinding := 7, fbGens := [7] }
    (by decide) (by decide) (by decide)).2.2 0 9 false

/-- C7: the claim that `create` restores the prior framebuffer bindings on
every outcome FAILS on the code.  With read/draw binding `5` active, a
generated framebuffer `7`, and an incomplete status, `create` returns
failure with both bindings left at `0`, not restored to `5`. -/
theorem create_incomplete_does_not_restore_binding :
    bindingLossRun.1 = false ∧
    bindingLossRun.2.2.readBinding = 0 ∧
    bindingLossRun.2.2.drawBinding = 0 ∧
    bindingLossRun.2.2.readBinding ≠ 5 ∧
    bindingLossRun.2.2.drawBinding ≠ 5 := by
  decide

/-- C7 amended: `create` restores the saved read/draw bindings on success;
on framebuffer allocation failure it leaves the bindings untouched; on
incompleteness it returns failure with the combined binding reset to the
default `0` (not the previously bound one) after destroying the partial
handle. -/
theorem create_binding_behavior
    (o : Owner) (gl : GLState) (w ht tid : Nat) (wantDepth : Bool)
    (cid : ContextId) (gd g : Handle) (comp : Bool)
    (hc : cid ≠ 0) (hd : wantDepth = false ∨ gd ≠ 0) :
    ((create o gl w ht tid wantDepth cid gd g comp).1 = true →
      (create o gl w ht tid wantDepth cid gd g comp).2.2.readBinding =
        gl.readBinding ∧
      (create o gl w ht tid wantDepth cid gd g comp).2.2.drawBinding =
        gl.drawBinding) ∧
    (g = 0 →
      (create o gl w ht tid wantDepth cid gd g comp).1 = false ∧
      (create o gl w ht tid wantDepth cid gd g comp).2.2.readBinding =
        gl.readBinding ∧
      (create o gl w ht tid wantDepth cid gd g comp).2.2.drawBinding =
        gl.drawBinding) ∧
    (g ≠ 0 → comp = false →
      (create o gl w ht tid wantDepth cid gd g comp).1 = false ∧
      (create o gl w ht tid wantDepth cid gd g comp).2.2.readBinding = 0 ∧
      (create o gl w ht tid wantDepth cid gd g comp).2.2.drawBinding = 0 ∧
      g ∈ (create o gl w ht tid wantDepth cid gd g comp).2.2.fbDeletions) := by
  have hcond : ¬(wantDepth = true ∧ gd = 0) := by
    rcases hd with hd | hd
    · rintro ⟨h1, h2⟩
      rw [hd] at h1
      exact Bool.false_ne_true h1
    · rintro ⟨h1, h2⟩
      exact hd h2
  by_cases hg : g = 0
  · subst hg
    simp [create, createFrameBuffer, genFramebuffer, hcond, hc]
  · cases comp with
    | true =>
        simp [create, createFrameBuffer, genFramebuffer, bindFramebuffer,
          hcond, hc, hg]
    | false =>
        simp [create, createFrameBuffer, genFramebuffer, bindFramebuffer,
          deleteFramebuffer, hcond, hc, hg]

/-- C7 amended witness: concrete instances of the three outcomes — success
restores the binding `5`, allocation failure leaves it at `5`, and
incompleteness resets it to `0`. -/
theorem create_binding_behavior_witness :
    ((create ownerInit { glInit with readBinding := 5, drawBinding := 5 }
        64 64 7 false 1 0 7 true).2.2.drawBinding = 5) ∧
    ((create ownerInit { glInit with readBinding := 5, drawBinding := 5 }
        64 64 7 false 1 0 0 true).2.2.drawBinding = 5) ∧
    ((create ownerInit { glInit with readBinding := 5, drawBinding := 5 }
        64 64 7 false 1 0 7 false).2.2.drawBinding = 0) := by
  refine ⟨?_, ?_, ?_⟩
  · exact ((create_binding_behavior ownerInit
      { glInit with readBinding := 5, drawBinding := 5 } 64 64 7 false 1 0 7
      true (by decide) (Or.inl rfl)).1 (by decide)).2
  · exact ((create_binding_behavior ownerInit
      { glInit with readBinding := 5, drawBinding := 5 } 64 64 7 false 1 0 0
      true (by decide) (Or.inl rfl)).2.1 rfl).2.2
  · exact ((create_binding_behavior ownerInit
      { glInit with readBinding := 5, drawBinding := 5 } 64 64 7 false 1 0 7
      false (by decide) (Or.inl rfl)).2.2 (by decide) rfl).2.2.1

/-- C8: when the driver reports the assembled framebuffer incomplete,
`createFrameBuffer` destroys exactly the partially created handle before
returning failure, leaves the owner (and its map) unchanged, and the owner
remains usable: a later `activate(true)` with a benign driver succeeds. -/
theorem createFrameBuffer_incomplete_cleanup
    (o : Owner) (gl : GLState) (cid : ContextId) (g : Handle)
    (hg : g ≠ 0) :
    (createFrameBuffer o gl cid g false).1 = false ∧
    (createFrameBuffer o gl cid g false).2.1 = o ∧
    (createFrameBuffer o gl cid g false).2.2.fbDeletions =
      gl.fbDeletions ++ [g] ∧
    (∀ (gl2 : GLState) (b : ContextId) (g2 : Handle), cid ≠ 0 → g2 ≠ 0 →
      (activate o gl2 true cid b g2 true).1 = true) := by
  refine ⟨?_, ?_, ?_, ?_⟩
  · simp [createFrameBuffer, hg]
  · simp [createFrameBuffer, hg]
  · simp [createFrameBuffer, genFramebuffer, bindFramebuffer,
      deleteFramebuffer, hg]
  · intro gl2 b g2 hcid hg2
    rw [activate_true_with_context o gl2 cid b g2 true hcid]
    cases hf : mapFind o.frameBuffers cid with
    | some h => rfl
    | none => simp [createFrameBuffer, hg2]

/-- C8 witness: the incompleteness path at a concrete input: the partial
handle `7` is the one deletion, the owner is unchanged, and a retry under
context `1` with generated handle `9` succeeds. -/
theorem createFrameBuffer_incomplete_cleanup_witness :
    (createFrameBuffer ownerInit glInit 1 7 false).1 = false ∧
    (createFrameBuffer ownerInit glInit 1 7 false).2.1 = ownerInit ∧
    (createFrameBuffer ownerInit glInit 1 7 false).2.2.fbDeletions =
      glInit.fbDeletions ++ [7] ∧
    (activate ownerInit glInit true 1 0 9 true).1 = true := by
  have h := createFrameBuffer_incomplete_cleanup ownerInit glInit 1 7
    (by decide)
  exact ⟨h.1, h.2.1, h.2.2.1, h.2.2.2 glInit 0 9 (by decide) (by decide)⟩

theorem createFrameBuffer_hasContext (o : Owner) (gl : GLState)
    (cid : ContextId) (g : Handle) (comp : Bool) :
    (createFrameBuffer o gl cid g comp).2.1.hasContext = o.hasContext := by
  rw [createFrameBuffer]
  by_cases hg : g = 0 <;> cases comp <;> simp [hg]

theorem createFrameBuffer_contextsCreated (o : Owner) (gl : GLState)
    (cid : ContextId) (g : Handle) (comp : Bool) :
    (createFrameBuffer o gl cid g comp).2.1.contextsCreated =
      o.contextsCreated := by
  rw [createFrameBuffer]
  by_cases hg : g = 0 <;> cases comp <;> simp [hg]

theorem activate_noctx_eq (o : Owner) (gl : GLState) (b : ContextId)
    (g : Handle) (comp : Bool) :
    activate o gl true 0 b g comp =
      (let o1 :=
        if o.hasContext then o
        else { o with hasContext := true, contextsCreated := o.contextsCreated + 1 }
      if b = 0 then (false, o1, gl)
      else match mapFind o.frameBuffers b with
        | some h => (true, o1, bindFramebuffer gl h)
        | none => createFrameBuffer o1 gl b g comp) := by
  rw [activate]
  cases hoc : o.hasContext <;> simp [hoc]

/-- C9: `activate(true)` with no active context allocates the backup
context only on the first such call — afterwards the owner has one, a later
call allocates no further context — and when the backup context fails to
become current (active id still `0`) the activation returns `false`. -/
theorem activate_backup_context_once
    (o : Owner) (gl : GLState) (b : ContextId) (g : Handle) (comp : Bool) :
    ((activate o gl true 0 b g comp).2.1.hasContext = true) ∧
    (o.hasContext = false →
      (activate o gl true 0 b g comp).2.1.contextsCreated =
        o.contextsCreated + 1) ∧
    (o.hasContext = true →
      (activate o gl true 0 b g comp).2.1.contextsCreated =
        o.contextsCreated) ∧
    (b = 0 → (activate o gl true 0 b g comp).1 = false) := by
  rw [activate_noctx_eq]
  cases hoc : o.hasContext with
  | false =>
      simp only [hoc, Bool.false_eq_true, if_false]
      by_cases hb : b = 0
      · simp [hb]
      · simp only [hb, if_false]
        cases hf : mapFind o.frameBuffers b with
        | some h => simp [hf, hb]
        | none =>
            simp [hf, hb, createFrameBuffer_hasContext,
              createFrameBuffer_contextsCreated]
  | true =>
      simp only [hoc, if_true]
      by_cases hb : b = 0
      · simp [hb, hoc]
      · simp only [hb, if_false]
        cases hf : mapFind o.frameBuffers b with
        | some h => simp [hf, hb, hoc]
        | none =>
            simp [hf, hb, hoc, createFrameBuffer_hasContext,
              createFrameBuffer_contextsCreated]

/-- C9 witness: on a fresh owner with no active context and a backup
context that fails to become current, the first call allocates the backup
context (counter `0` becomes `1`) and returns `false`; an owner that
already has a backup context allocates no further one. -/
theorem activate_backup_context_once_witness :
    (activate ownerInit glInit true 0 0 7 true).2.1.contextsCreated =
      ownerInit.contextsCreated + 1 ∧
    (activate ownerInit glInit true 0 0 7 true).1 = false ∧
    (activate { ownerInit with hasContext := true } glInit true 0 0 7
        true).2.1.contextsCreated =
      ({ ownerInit with hasContext := true } : Owner).contextsCreated := by
  refine ⟨?_, ?_, ?_⟩
  · exact (activate_backup_context_once ownerInit glInit 0 7 true).2.1 rfl
  · exact (activate_backup_context_once ownerInit glInit 0 7 true).2.2.2 rfl
  · exact (activate_backup_context_once { ownerInit with hasContext := true }
      glInit 0 7 true).2.2.1 rfl
